import Mathlib

/-!
Verification development for the Kroger API OAuth token-lifecycle layer
(`kroger_api/client.py`, `kroger_api/token_storage.py`,
`kroger_api/utils/pkce.py`, `kroger_api/auth/interactive.py`).

The Python code is shallowly embedded: token records (Python dicts holding
JSON scalars) become association lists of a small JSON value type, the
filesystem becomes an explicit map from file names to file states, the
network becomes an explicit oracle supplying the outcome of each outbound
HTTP call, and Python exceptions become `Except` values.  Every function is
a computable Lean definition mirroring the source control flow.
-/

namespace KrogerSpec

/-- JSON scalar values as they appear in a persisted token record
(Python dict values: strings, ints, booleans, null).  Token records in this
code base are flat JSON objects of such scalars. -/
inductive JVal where
  | s (v : String)
  | i (v : Int)
  | b (v : Bool)
  | null
deriving DecidableEq, Repr

/-- A token record: the in-memory Python dict (insertion ordered), i.e. an
association list from field names to JSON scalars. -/
def TokenInfo : Type := List (String × JVal)

instance : DecidableEq TokenInfo := by
  unfold TokenInfo
  infer_instance

instance : Inhabited TokenInfo := ⟨([] : List (String × JVal))⟩

/-- Membership test mirroring Python `"k" in d`. -/
def hasKey (info : TokenInfo) (k : String) : Bool :=
  (List.lookup k (info : List (String × JVal))).isSome

/-- Lookup mirroring Python `d["k"]` / `d.get("k")` (first binding wins). -/
def getKey (info : TokenInfo) (k : String) : Option JVal :=
  List.lookup k (info : List (String × JVal))

/-- Python truthiness of a JSON scalar (`if refresh_token:` etc.). -/
def jvTruthy : JVal → Bool
  | .s v => v ≠ ""
  | .i v => v ≠ 0
  | .b v => v
  | .null => false

/-! ## JSON serialization (`json.dump(token_info, f, indent=2)`)

The printer reproduces `json.dump` with `indent=2` and the default
`ensure_ascii=True` on a flat object: `"{}"` for the empty dict, otherwise
one `"key": value` member per line indented by two spaces, members
separated by commas.  Strings are escaped exactly as Python does: `\"`,
`\\`, the short escapes `\b \t \n \f \r`, and `\uXXXX` (lowercase hex, with
surrogate pairs above the BMP) for every other character outside the
printable ASCII range 0x20–0x7e. -/

/-- Lowercase hexadecimal digit character for a value below 16. -/
def hexDigitChar (n : Nat) : Char :=
  if n < 10 then Char.ofNat (48 + n) else Char.ofNat (87 + n)

/-- Four-digit lowercase hex rendering of a value below 0x10000. -/
def hex4 (n : Nat) : List Char :=
  [hexDigitChar (n / 4096 % 16), hexDigitChar (n / 256 % 16),
   hexDigitChar (n / 16 % 16), hexDigitChar (n % 16)]

/-- Escape of one character in a JSON string literal, following Python
`json.encoder` with `ensure_ascii=True`. -/
def escChar (c : Char) : List Char :=
  if c = '"' then ['\\', '"']
  else if c = '\\' then ['\\', '\\']
  else if c.toNat = 8 then ['\\', 'b']
  else if c.toNat = 9 then ['\\', 't']
  else if c.toNat = 10 then ['\\', 'n']
  else if c.toNat = 12 then ['\\', 'f']
  else if c.toNat = 13 then ['\\', 'r']
  else if 32 ≤ c.toNat ∧ c.toNat ≤ 126 then [c]
  else if c.toNat < 65536 then '\\' :: 'u' :: hex4 c.toNat
  else
    ('\\' :: 'u' :: hex4 (55296 + (c.toNat - 65536) / 1024)) ++
      ('\\' :: 'u' :: hex4 (56320 + (c.toNat - 65536) % 1024))

/-- Escape of a whole string body (no surrounding quotes). -/
def escList : List Char → List Char
  | [] => []
  | c :: cs => escChar c ++ escList cs

/-- Decimal digit character. -/
def digitChar (d : Nat) : Char := Char.ofNat (48 + d)

/-- Decimal rendering of a natural number (Python `str(n)`). -/
def printNat (n : Nat) : List Char :=
  if n = 0 then ['0'] else ((Nat.digits 10 n).reverse).map digitChar

/-- Decimal rendering of an integer (Python `str(i)`). -/
def printInt (i : Int) : List Char :=
  if i < 0 then '-' :: printNat i.natAbs else printNat i.toNat

/-- Rendering of one JSON scalar value. -/
def printJVal : JVal → List Char
  | .s v => '"' :: (escList v.data ++ ['"'])
  | .i v => printInt v
  | .b true => ['t', 'r', 'u', 'e']
  | .b false => ['f', 'a', 'l', 's', 'e']
  | .null => ['n', 'u', 'l', 'l']

/-- Rendering of one `"key": value` member. -/
def printMember (k : String) (v : JVal) : List Char :=
  '"' :: (escList k.data ++ ('"' :: ':' :: ' ' :: printJVal v))

/-- Rendering of the comma-plus-newline-indented member list. -/
def printMembers : List (String × JVal) → List Char
  | [] => []
  | [(k, v)] => printMember k v
  | (k, v) :: rest =>
      printMember k v ++ (',' :: '\n' :: ' ' :: ' ' :: printMembers rest)

/-- Full `json.dump(info, f, indent=2)` output for a flat token record. -/
def dumpJson (info : TokenInfo) : String :=
  match (info : List (String × JVal)) with
  | [] => String.mk ['\x7b', '\x7d']
  | l => String.mk
      ('\x7b' :: '\n' :: ' ' :: ' ' :: (printMembers l ++ ('\n' :: ['\x7d'])))

/-! ## JSON parsing (`json.load`)

A parser for the same flat-object subset, whitespace-tolerant in the
positions `json.load` tolerates it.  Recursive loops carry explicit fuel;
every iteration consumes at least one character, so fuel of one more than
the input length always suffices (the top-level entry points supply it). -/

/-- JSON whitespace (`' '`, tab, newline, carriage return). -/
def isWs (c : Char) : Bool :=
  c = ' ' ∨ c = '\t' ∨ c = '\n' ∨ c = '\x0d'

/-- Skip leading whitespace. -/
def skipWs (cs : List Char) : List Char := cs.dropWhile isWs

/-- Value of one hex digit character, if it is one (accepting both cases). -/
def hexVal (c : Char) : Option Nat :=
  if 48 ≤ c.toNat ∧ c.toNat ≤ 57 then some (c.toNat - 48)
  else if 97 ≤ c.toNat ∧ c.toNat ≤ 102 then some (c.toNat - 87)
  else if 65 ≤ c.toNat ∧ c.toNat ≤ 70 then some (c.toNat - 55)
  else none

/-- Parse exactly four hex digits. -/
def parseHex4 : List Char → Option (Nat × List Char)
  | c1 :: c2 :: c3 :: c4 :: rest =>
    match hexVal c1, hexVal c2, hexVal c3, hexVal c4 with
    | some h1, some h2, some h3, some h4 =>
        some (h1 * 4096 + h2 * 256 + h3 * 16 + h4, rest)
    | _, _, _, _ => none
  | _ => none

/-- Single-character short escapes. -/
def unescChar (c : Char) : Option Char :=
  if c = '"' then some '"'
  else if c = '\\' then some '\\'
  else if c = '/' then some '/'
  else if c = 'b' then some (Char.ofNat 8)
  else if c = 'f' then some (Char.ofNat 12)
  else if c = 'n' then some '\n'
  else if c = 'r' then some (Char.ofNat 13)
  else if c = 't' then some '\t'
  else none

/-- Parse one `\uXXXX` escape (after the `\u`), combining a surrogate
pair into one character. -/
def parseUEscape (r : List Char) : Option (Char × List Char) :=
  match parseHex4 r with
  | none => none
  | some (h, r2) =>
    if 55296 ≤ h ∧ h < 56320 then
      match r2 with
      | '\\' :: 'u' :: r3 =>
        match parseHex4 r3 with
        | none => none
        | some (lo, r4) =>
          if 56320 ≤ lo ∧ lo < 57344 then
            some (Char.ofNat (65536 + (h - 55296) * 1024 + (lo - 56320)), r4)
          else none
      | _ => none
    else if 56320 ≤ h ∧ h < 57344 then none
    else some (Char.ofNat h, r2)

/-- Parse the body of a string literal up to and including the closing
quote, decoding escapes (including surrogate pairs). -/
def parseStrBody : Nat → List Char → Option (List Char × List Char)
  | 0, _ => none
  | _, [] => none
  | fuel + 1, c :: rest =>
    if c = '"' then some ([], rest)
    else if c = '\\' then
      match rest with
      | [] => none
      | e :: r =>
        if e = 'u' then
          match parseUEscape r with
          | none => none
          | some (d, r2) =>
            match parseStrBody fuel r2 with
            | none => none
            | some (s, r3) => some (d :: s, r3)
        else
          match unescChar e with
          | none => none
          | some d =>
            match parseStrBody fuel r with
            | none => none
            | some (s, r2) => some (d :: s, r2)
    else
      match parseStrBody fuel rest with
      | none => none
      | some (s, r) => some (c :: s, r)

/-- Numeric value of a big-endian list of decimal digit characters. -/
def digitsToNat (cs : List Char) : Nat :=
  cs.foldl (fun a c => 10 * a + (c.toNat - 48)) 0

/-- Parse a nonempty run of decimal digits. -/
def parseNatCs (cs : List Char) : Option (Nat × List Char) :=
  let ds := cs.takeWhile Char.isDigit
  if ds.isEmpty then none else some (digitsToNat ds, cs.dropWhile Char.isDigit)

/-- Parse one JSON scalar value. -/
def parseVal (cs : List Char) : Option (JVal × List Char) :=
  match cs with
  | [] => none
  | c :: rest =>
    if c = '"' then
      match parseStrBody (rest.length + 1) rest with
      | none => none
      | some (s, r) => some (.s (String.mk s), r)
    else if c = 't' then
      match rest with
      | 'r' :: 'u' :: 'e' :: r => some (.b true, r)
      | _ => none
    else if c = 'f' then
      match rest with
      | 'a' :: 'l' :: 's' :: 'e' :: r => some (.b false, r)
      | _ => none
    else if c = 'n' then
      match rest with
      | 'u' :: 'l' :: 'l' :: r => some (.null, r)
      | _ => none
    else if c = '-' then
      match parseNatCs rest with
      | none => none
      | some (n, r) => some (.i (-(n : Int)), r)
    else
      match parseNatCs (c :: rest) with
      | none => none
      | some (n, r) => some (.i (n : Int), r)

/-- Parse the members of a nonempty object, starting at the opening quote
of a key and ending just after the closing brace. -/
def parseMembers : Nat → List Char → Option (List (String × JVal) × List Char)
  | 0, _ => none
  | fuel + 1, cs =>
    match cs with
    | [] => none
    | c :: r =>
      if c = '"' then
        match parseStrBody (r.length + 1) r with
        | none => none
        | some (k, r2) =>
          match skipWs r2 with
          | [] => none
          | c2 :: r3 =>
            if c2 = ':' then
              match parseVal (skipWs r3) with
              | none => none
              | some (v, r4) =>
                match skipWs r4 with
                | [] => none
                | c3 :: r5 =>
                  if c3 = ',' then
                    match parseMembers fuel (skipWs r5) with
                    | none => none
                    | some (kvs, r6) => some ((String.mk k, v) :: kvs, r6)
                  else if c3 = '\x7d' then some ([(String.mk k, v)], r5)
                  else none
            else none
      else none

/-- Parse a whole flat JSON object, requiring only trailing whitespace
after it (as `json.load` does). -/
def parseJson (content : String) : Option TokenInfo :=
  match skipWs content.data with
  | [] => none
  | c :: r =>
    if c = '\x7b' then
      match skipWs r with
      | [] => none
      | c2 :: r2 =>
        if c2 = '\x7d' then
          if (skipWs r2).isEmpty then some ([] : List (String × JVal)) else none
        else
          match parseMembers ((c2 :: r2).length + 1) (c2 :: r2) with
          | none => none
          | some (kvs, r3) => if (skipWs r3).isEmpty then some kvs else none
    else none

end KrogerSpec

namespace KrogerSpec

/-! ## Error model

Python exceptions that can arise in the embedded code, as a value type.
`ErrBody` models the body of an HTTP error response as `_make_request`
inspects it: a JSON body with an optional `"error"` field, or a body that
is not JSON (so that `e.response.json()` itself raises). -/

/-- Body of an HTTP error response as seen by `e.response.json()`. -/
inductive ErrBody where
  | jsonFields (errField : Option String)
  | nonJson
deriving DecidableEq, Repr

/-- Python exceptions occurring in the embedded fragment. -/
inductive PyErr where
  | valueError (msg : String)
  | timeoutErr (msg : String)
  | httpError (status : Nat) (body : ErrBody)
  | jsonDecodeError
  | ioError
  | osError
  | netError
  | unicodeEncodeError
deriving DecidableEq, Repr

deriving instance DecidableEq for Except

/-! ## Credential store (`token_storage.py`)

The filesystem is a map from file names to file states; a file is either
readable with some textual content or present but unreadable (`open`
raises `IOError`). -/

/-- State of one file on disk. -/
inductive FileSt where
  | readable (content : String)
  | unreadable
deriving DecidableEq

/-- A filesystem: file name to file state. -/
def FS : Type := String → Option FileSt

/-- Pointwise filesystem update (the effect of writing a file). -/
def fsSet (fs : FS) (k : String) (v : FileSt) : FS :=
  fun x => if x = k then some v else fs x

/-- Filesystem effect of `save_token`: `json.dump(token_info, f, indent=2)`
into `token_file` (the `with open(token_file, "w")` block). -/
def saveTokenFs (fs : FS) (tokenFile : String) (info : TokenInfo) : FS :=
  fsSet fs tokenFile (.readable (dumpJson info))

/-- Embedding of `save_token(token_info, token_file)`: write the record,
then `os.chmod(token_file, 0o600)`.  The chmod is modelled by an oracle
bit `chmodFails`; when it fails it raises after the write has completed. -/
def saveToken (fs : FS) (tokenFile : String) (info : TokenInfo)
    (chmodFails : Bool) : FS × Except PyErr Unit :=
  (saveTokenFs fs tokenFile info,
    if chmodFails then .error .osError else .ok ())

/-- The `except (json.JSONDecodeError, IOError)` clause of `load_token`:
those two exception classes are converted to a `None` result, every other
outcome passes through. -/
def tryExceptLoad (r : Except PyErr (Option TokenInfo)) :
    Except PyErr (Option TokenInfo) :=
  match r with
  | .error .jsonDecodeError => .ok none
  | .error .ioError => .ok none
  | other => other

/-- Embedding of `open(token_file, "r")` + `f.read()`. -/
def readFileExc (fs : FS) (file : String) : Except PyErr String :=
  match fs file with
  | some (.readable content) => .ok content
  | some .unreadable => .error .ioError
  | none => .error .ioError

/-- Embedding of `load_token(token_file)`: `None` when the file does not
exist; otherwise read and `json.load` inside the try/except. -/
def loadTokenExc (fs : FS) (tokenFile : String) :
    Except PyErr (Option TokenInfo) :=
  match fs tokenFile with
  | none => .ok none
  | some _ =>
    tryExceptLoad (
      match readFileExc fs tokenFile with
      | .error e => .error e
      | .ok content =>
        match parseJson content with
        | some info => .ok (some info)
        | none => .error .jsonDecodeError)

/-- Convenience form of `load_token` as the `Option` it always evaluates
to (`load_token` never raises, proved below). -/
def loadTok (fs : FS) (tokenFile : String) : Option TokenInfo :=
  match loadTokenExc fs tokenFile with
  | .ok r => r
  | .error _ => none

/-- Embedding of `get_refresh_token(token_file)`: load, then project the
`refresh_token` field when present. -/
def getRefreshTokenFs (fs : FS) (tokenFile : String) : Option JVal :=
  match loadTok fs tokenFile with
  | some info => if hasKey info "refresh_token" then getKey info "refresh_token" else none
  | none => none

/-! ## PKCE generator (`utils/pkce.py`)

`generate_code_challenge` hashes the ASCII encoding of the verifier with
SHA-256 and URL-safe-base64-encodes the digest, stripping `'='` padding.
SHA-256 (FIPS 180-4) and RFC 4648 URL-safe base64 are implemented here
concretely so the challenge is computable. -/

end KrogerSpec

namespace KrogerSpec

/-! ## Client model (`client.py`)

The network is an oracle (`World`): for each kind of outbound call it
fixes the outcome the server would return.  `probe` gives the HTTP status
of the lightweight `GET /v1/connect/oauth2/profile` validity probe for a
given `access_token` value (`none` models the request itself raising);
`tokenCC`, `tokenRefresh` and `tokenExchange` give the token endpoint's
response for the three grant types; `req1`/`req2` give the outcomes of the
first and the retried attempt of an authenticated API request; and
`chmodFails` tells whether `os.chmod` in `save_token` raises on this
platform.  Every outbound call is also logged in an event trace. -/

/-- Outcome of one authenticated API request (after `raise_for_status`):
a 204, a JSON body, an HTTP error response, or a transport-level
exception. -/
inductive ReqRes where
  | noContent
  | jsonBody (body : String)
  | err (status : Nat) (body : ErrBody)
  | raiseNet
deriving DecidableEq, Repr

/-- The network/platform oracle. -/
structure World where
  probe : JVal → Option Nat
  tokenCC : String → Except PyErr TokenInfo
  tokenRefresh : JVal → Except PyErr TokenInfo
  tokenExchange : String → Except PyErr TokenInfo
  chmodFails : Bool
  req1 : ReqRes
  req2 : ReqRes

/-- Outbound calls, as recorded in the event trace. -/
inductive Event where
  | probeCall
  | tokenEndpoint (grantType : String)
  | apiRequest
deriving DecidableEq, Repr

/-- Mutable state of a `KrogerClient` instance: `self.token_info` and
`self.token_file`. -/
structure Client where
  tokenInfo : Option TokenInfo
  tokenFile : Option String
deriving DecidableEq

/-- The bearer token `_get_auth_header` would use: `none` when it raises
`ValueError` (`self.token_info` absent or falsy, or no `access_token`
key), otherwise the value of the `access_token` field. -/
def authToken : Option TokenInfo → Option JVal
  | none => none
  | some info =>
    if (info : List (String × JVal)) = [] then none
    else if hasKey info "access_token" then getKey info "access_token"
    else none

/-- Embedding of `refresh_token(self, refresh_token)`: one token-endpoint
call with `grant_type=refresh_token`; on success `_get_token` stores the
new record in `self.token_info` and `save_token` persists it to
`self.token_file` (default `.kroger_token_user.json`), where the chmod may
still raise after the write; on failure the exception propagates. -/
def refreshTokenM (w : World) (c : Client) (fs : FS) (rt : JVal) :
    Except PyErr TokenInfo × Client × FS × List Event :=
  match w.tokenRefresh rt with
  | .error e => (.error e, c, fs, [.tokenEndpoint "refresh_token"])
  | .ok info =>
    let c2 : Client := ⟨some info, c.tokenFile⟩
    -- `if self.token_file:` — Python truthiness, so `""` also falls back
    let file := match c.tokenFile with
      | some f => if f = "" then ".kroger_token_user.json" else f
      | none => ".kroger_token_user.json"
    let fs2 := saveTokenFs fs file info
    if w.chmodFails then (.error .osError, c2, fs2, [.tokenEndpoint "refresh_token"])
    else (.ok info, c2, fs2, [.tokenEndpoint "refresh_token"])

/-- The refresh fallback shared by both failure paths inside the
refresh-token branch of `test_token` (lines 212–219 and 221–229 of
`client.py`): attempt one refresh; `True` exactly when it succeeds. -/
def testTokenRefreshPath (w : World) (c : Client) (fs : FS) (rt : JVal) :
    Bool × Client × FS × List Event :=
  match refreshTokenM w c fs rt with
  | (.ok _, c2, fs2, tr) => (true, c2, fs2, tr)
  | (.error _, c2, fs2, tr) => (false, c2, fs2, tr)

/-- Embedding of `test_token(self, token_info)`.  The probed record is
temporarily installed as `self.token_info`; on a non-exception probe it is
restored before the status check.  With a `refresh_token` field, a failed
or raising probe falls back to exactly one refresh; without one, the
result is simply whether the probe returned 200.  On the paths where the
probe (or building its auth header) raises, the source never restores the
original `self.token_info`. -/
def testToken (w : World) (c : Client) (fs : FS) (info : TokenInfo) :
    Bool × Client × FS × List Event :=
  let rt := (getKey info "refresh_token").getD .null
  if hasKey info "refresh_token" then
    match authToken (some info) with
    | none =>
      -- `_get_auth_header` raised inside the try: `self.token_info` is
      -- still the probed record; fall to the refresh attempt.
      testTokenRefreshPath w ⟨some info, c.tokenFile⟩ fs rt
    | some tok =>
      match w.probe tok with
      | none =>
        -- the request raised: no restore, then the refresh attempt
        let (b, c2, fs2, tr) :=
          testTokenRefreshPath w ⟨some info, c.tokenFile⟩ fs rt
        (b, c2, fs2, .probeCall :: tr)
      | some status =>
        -- response received: `self.token_info` restored
        if status = 200 then (true, c, fs, [.probeCall])
        else
          let (b, c2, fs2, tr) := testTokenRefreshPath w c fs rt
          (b, c2, fs2, .probeCall :: tr)
  else
    match authToken (some info) with
    | none => (false, ⟨some info, c.tokenFile⟩, fs, [])
    | some tok =>
      match w.probe tok with
      | none => (false, ⟨some info, c.tokenFile⟩, fs, [.probeCall])
      | some status => (decide (status = 200), c, fs, [.probeCall])

/-- The `scope.replace(':', '_')` step (single-character pattern, so a
character-wise replacement). -/
def replaceColon (s : String) : String :=
  String.mk (s.data.map (fun c => if c = ':' then '_' else c))

/-- Slot name used by the client-credentials flow:
`.kroger_token_client_{scope.replace(':', '_')}.json`. -/
def ccSlotName (scope : String) : String :=
  ".kroger_token_client_" ++ replaceColon scope ++ ".json"

/-- Embedding of `get_token_with_client_credentials(self, scope)`: set the
scope-derived slot, load it, probe a loaded record with `test_token` and
return it if valid; otherwise perform a client-credentials exchange at
the token endpoint and persist the fresh record to the same slot. -/
def getTokenCC (w : World) (c : Client) (fs : FS) (scope : String) :
    Except PyErr TokenInfo × Client × FS × List Event :=
  let file := ccSlotName scope
  let c0 : Client := ⟨c.tokenInfo, some file⟩
  let afterLoad :
      Client × FS × List Event → Except PyErr TokenInfo × Client × FS × List Event :=
    fun (c1, fs1, tr1) =>
      match w.tokenCC scope with
      | .error e =>
          (.error e, c1, fs1, tr1 ++ [.tokenEndpoint "client_credentials"])
      | .ok info =>
        let c2 : Client := ⟨some info, c1.tokenFile⟩
        let fs2 := saveTokenFs fs1 file info
        if w.chmodFails then
          (.error .osError, c2, fs2, tr1 ++ [.tokenEndpoint "client_credentials"])
        else (.ok info, c2, fs2, tr1 ++ [.tokenEndpoint "client_credentials"])
  match loadTok fs file with
  | some info =>
    -- `if token_info:` — an empty dict is falsy and skips straight to the
    -- fresh exchange
    if info = [] then afterLoad (c0, fs, [])
    else
      let (valid, c1, fs1, tr1) := testToken w c0 fs info
      if valid then (.ok info, ⟨some info, c1.tokenFile⟩, fs1, tr1)
      else afterLoad (c1, fs1, tr1)
  | none => afterLoad (c0, fs, [])

/-- Result of evaluating a `ReqRes` the way the request body is consumed
on the success path (`204 → None`, otherwise `response.json()`). -/
def reqSuccess : ReqRes → Option (Option String)
  | .noContent => some none
  | .jsonBody s => some (some s)
  | _ => none

/-- Embedding of `_make_request(self, ...)`: build the auth header, issue
the request, and on a 401 `invalid_token` error with a refresh token
available in the active slot, refresh once and retry once, re-raising the
original error if anything in the refresh-retry block fails. -/
def makeRequest (w : World) (c : Client) (fs : FS) :
    Except PyErr (Option String) × Client × FS × List Event :=
  match authToken c.tokenInfo with
  | none =>
      (.error (.valueError "No access token available. Please authenticate first."),
        c, fs, [])
  | some _ =>
    match w.req1 with
    | .noContent => (.ok none, c, fs, [.apiRequest])
    | .jsonBody s => (.ok (some s), c, fs, [.apiRequest])
    | .raiseNet => (.error .netError, c, fs, [.apiRequest])
    | .err status body =>
      let orig := PyErr.httpError status body
      if status = 401 then
        match body with
        | .nonJson => (.error .jsonDecodeError, c, fs, [.apiRequest])
        | .jsonFields errField =>
          if errField = some "invalid_token" then
            match c.tokenFile with
            | none => (.error orig, c, fs, [.apiRequest])
            | some file =>
              -- `if self.token_file:` — `""` is falsy, no refresh attempt
              if file = "" then (.error orig, c, fs, [.apiRequest])
              else
              match getRefreshTokenFs fs file with
              | none => (.error orig, c, fs, [.apiRequest])
              | some rt =>
                if jvTruthy rt then
                  match refreshTokenM w c fs rt with
                  | (.error _, c1, fs1, tr) =>
                      (.error orig, c1, fs1, .apiRequest :: tr)
                  | (.ok newInfo, c1, fs1, tr) =>
                    -- retry once with the new token; any failure inside
                    -- this block re-raises the original error
                    match authToken (some newInfo) with
                    | none => (.error orig, c1, fs1, .apiRequest :: tr)
                    | some _ =>
                      match w.req2 with
                      | .noContent =>
                          (.ok none, c1, fs1, .apiRequest :: tr ++ [.apiRequest])
                      | .jsonBody s =>
                          (.ok (some s), c1, fs1, .apiRequest :: tr ++ [.apiRequest])
                      | .raiseNet =>
                          (.error orig, c1, fs1, .apiRequest :: tr ++ [.apiRequest])
                      | .err _ _ =>
                          (.error orig, c1, fs1, .apiRequest :: tr ++ [.apiRequest])
                else (.error orig, c, fs, [.apiRequest])
          else (.error orig, c, fs, [.apiRequest])
      else (.error orig, c, fs, [.apiRequest])

end KrogerSpec

namespace KrogerSpec

/-! ## Interactive flow (`auth/interactive.py`)

`authenticate_user` first tries the persisted token, then a refresh, then
drives the browser flow: start the local callback server, wait for the
redirect, verify the `state` value, exchange the code.  What the redirect
brings (or a timeout) is the run's `Scenario`.  The callback server is a
flag (`true` = shut down): the `except` branch of the source shuts it down
before re-raising and the `finally` branch shuts it down on every exit. -/

/-- Effect of `server.shutdown()` on the server flag (idempotent). -/
def serverShutdown (_running : Bool) : Bool := true

/-- What happens at the local callback listener during one run. -/
inductive Scenario where
  | timeout
  | callback (code : String) (state : String)
deriving DecidableEq, Repr

/-- Per-run configuration of the interactive flow: the configured
`KROGER_REDIRECT_URI` (if set), the random `state` generated for this
attempt, and the scenario at the listener. -/
structure FlowCfg where
  redirectUri : Option String
  genState : String
  scenario : Scenario

/-- Embedding of `get_redirect_uri()`: the environment value, raising if
unset or empty. -/
def getRedirectUriEnv (ru : Option String) : Except PyErr String :=
  match ru with
  | some u =>
    if u = "" then
      .error (.valueError "KROGER_REDIRECT_URI environment variable is not set.")
    else .ok u
  | none => .error (.valueError "KROGER_REDIRECT_URI environment variable is not set.")

/-- Split a character list at every occurrence of a separator character
(the effect of Python `str.split` with a one-character separator). -/
def splitChar (sep : Char) : List Char → List (List Char)
  | [] => [[]]
  | c :: cs =>
    match splitChar sep cs with
    | [] => [[c]]
    | g :: gs => if c = sep then [] :: g :: gs else (c :: g) :: gs

/-- Python `int(str)` on the strings this flow feeds it: a nonempty digit
run parses, anything else raises `ValueError`. -/
def pyIntParse (cs : List Char) : Option Nat :=
  if cs ≠ [] ∧ cs.all Char.isDigit then some (digitsToNat cs) else none

/-- Embedding of `extract_port_from_redirect_uri`: the integer between the
last `':'` and the following `'/'`. -/
def extractPort (uri : String) : Option Nat :=
  match (splitChar ':' uri.data).getLast? with
  | none => none
  | some seg =>
    match (splitChar '/' seg).head? with
    | none => none
    | some p => pyIntParse p

/-- Embedding of `test_current_token()`: test `self.client.token_info`
when it is truthy, else `False`. -/
def testCurrentToken (w : World) (c : Client) (fs : FS) :
    Bool × Client × FS × List Event :=
  match c.tokenInfo with
  | some info =>
    if (info : List (String × JVal)) = [] then (false, c, fs, [])
    else testToken w c fs info
  | none => (false, c, fs, [])

/-- Embedding of `get_token_with_authorization_code(self, code)`: requires
a configured redirect URI, sets the user slot `.kroger_token_user.json`,
exchanges the code at the token endpoint and persists the result. -/
def getTokenAuthCode (w : World) (redirectUri : Option String) (c : Client)
    (fs : FS) (code : String) :
    Except PyErr TokenInfo × Client × FS × List Event :=
  if redirectUri = none ∨ redirectUri = some "" then
    (.error (.valueError "Missing redirect_uri for authorization code flow"),
      c, fs, [])
  else
    let c1 : Client := ⟨c.tokenInfo, some ".kroger_token_user.json"⟩
    match w.tokenExchange code with
    | .error e => (.error e, c1, fs, [.tokenEndpoint "authorization_code"])
    | .ok info =>
      let c2 : Client := ⟨some info, c1.tokenFile⟩
      let fs2 := saveTokenFs fs ".kroger_token_user.json" info
      if w.chmodFails then
        (.error .osError, c2, fs2, [.tokenEndpoint "authorization_code"])
      else (.ok info, c2, fs2, [.tokenEndpoint "authorization_code"])

/-- The `try` body plus `except` branch of the interactive section of
`authenticate_user`, entered right after `start_oauth_server`: the third
component is the server flag as left by the body itself (the `except`
branch shuts the server down before re-raising; the success path leaves
the shutdown to `finally`). -/
def interactiveBody (w : World) (cfg : FlowCfg) (c : Client) (fs : FS) :
    Except PyErr Client × FS × Bool × List Event :=
  match cfg.scenario with
  | .timeout =>
    (.error (.timeoutErr "Authorization flow timed out. Please try again."),
      fs, true, [])
  | .callback code st =>
    if st ≠ cfg.genState then
      (.error (.valueError "State parameter mismatch. Possible CSRF attack."),
        fs, true, [])
    else
      match getTokenAuthCode w cfg.redirectUri c fs code with
      | (.ok _, c2, fs2, tr) => (.ok c2, fs2, false, tr)
      | (.error e, _, fs2, tr) => (.error e, fs2, true, tr)

/-- The saved-token stage of `authenticate_user` (lines 47–62 of
`interactive.py`): load the slot, install and test a found record.  The
last component is whether the flow can return right here. -/
def authSavedStep (w : World) (fs : FS) (tokenFile : String) :
    Client × FS × List Event × Bool :=
  match loadTok fs tokenFile with
  | some info =>
    -- `if token_info:` — an empty dict is falsy and skips the install/test
    if info = [] then (⟨none, some tokenFile⟩, fs, [], false)
    else
      let cL : Client := ⟨some info, some tokenFile⟩
      let (valid, c2, fs2, tr2) := testCurrentToken w cL fs
      (c2, fs2, tr2, valid)
  | none => (⟨none, some tokenFile⟩, fs, [], false)

/-- The refresh stage of `authenticate_user` (lines 65–79): try the
stored refresh token and re-test; exceptions are caught and the flow
falls through. -/
def authRefreshStep (w : World) (c1 : Client) (fs1 : FS) (tokenFile : String) :
    Client × FS × List Event × Bool :=
  match getRefreshTokenFs fs1 tokenFile with
  | some rt =>
    if jvTruthy rt then
      match refreshTokenM w c1 fs1 rt with
      | (.ok _, c4, fs4, tr4) =>
        let (valid2, c5, fs5, tr5) := testCurrentToken w c4 fs4
        (c5, fs5, tr4 ++ tr5, valid2)
      | (.error _, c4, fs4, tr4) => (c4, fs4, tr4, false)
    else (c1, fs1, [], false)
  | none => (c1, fs1, [], false)

/-- The browser stage of `authenticate_user` (lines 81–137): resolve the
redirect URI and its port, start the callback server, run the
`try`/`except`/`finally` body.  The `Option Bool` is the server flag
(`none` = never started). -/
def authInteractive (w : World) (cfg : FlowCfg) (c3 : Client) (fs3 : FS) :
    Except PyErr Client × FS × Option Bool × List Event :=
  match getRedirectUriEnv cfg.redirectUri with
  | .error e => (.error e, fs3, none, [])
  | .ok uri =>
    match extractPort uri with
    | none =>
      (.error (.valueError ("Could not extract port from redirect URI: " ++ uri)),
        fs3, none, [])
    | some _ =>
      -- the server is started here; `finally` shuts it down on every
      -- exit path of the body
      let (res, fs4, srv, tr4) := interactiveBody w cfg c3 fs3
      (res, fs4, some (serverShutdown srv), tr4)

/-- Embedding of `authenticate_user(scopes, token_file, timeout)`.  The
result carries the final filesystem, the callback server flag
(`none` = the server was never started, `some b` = started with final
shut-down flag `b`) and the trace of outbound calls. -/
def authenticateUser (w : World) (cfg : FlowCfg) (fs : FS)
    (tokenFile : String) :
    Except PyErr Client × FS × Option Bool × List Event :=
  match authSavedStep w fs tokenFile with
  | (c1, fs1, tr1, true) => (.ok c1, fs1, none, tr1)
  | (c1, fs1, tr1, false) =>
    match authRefreshStep w c1 fs1 tokenFile with
    | (c3, fs3, tr3, true) => (.ok c3, fs3, none, tr1 ++ tr3)
    | (c3, fs3, tr3, false) =>
      let (res, fs4, srv, tr4) := authInteractive w cfg c3 fs3
      (res, fs4, srv, tr1 ++ tr3 ++ tr4)

end KrogerSpec

namespace KrogerSpec

/-! ## Statement helpers and concrete sample inputs

Trace counters and predicates used by the theorem statements, plus the
concrete records, filesystems, oracles and configurations at which the
witness and counterexample theorems instantiate them. -/

/-- Is an event a token-endpoint call (of any grant type)? -/
def isTokenCall : Event → Bool
  | .tokenEndpoint _ => true
  | _ => false

/-- Number of token-endpoint calls in a trace. -/
def countTokenCalls (tr : List Event) : Nat := tr.countP isTokenCall

/-- Number of refresh-grant token calls in a trace. -/
def countRefreshCalls (tr : List Event) : Nat :=
  tr.count (Event.tokenEndpoint "refresh_token")

/-- Number of client-credentials-grant token calls in a trace. -/
def countCCCalls (tr : List Event) : Nat :=
  tr.count (Event.tokenEndpoint "client_credentials")

/-- Number of code-exchange token calls in a trace. -/
def countExchangeCalls (tr : List Event) : Nat :=
  tr.count (Event.tokenEndpoint "authorization_code")

/-- Number of authenticated API requests in a trace. -/
def countApiCalls (tr : List Event) : Nat := tr.count Event.apiRequest

/-- Whether the `refresh_token(rt)` call would complete without raising
(token endpoint accepts the grant and the chmod inside `save_token` does
not raise). -/
def refreshWouldSucceed (w : World) (rt : JVal) : Bool :=
  match w.tokenRefresh rt with
  | .ok _ => !w.chmodFails
  | .error _ => false

/-- The refresh token `_make_request` would find for the active slot: the
client must have a `token_file`, `get_refresh_token` must find the field,
and the value must be truthy. -/
def availRefreshToken (c : Client) (fs : FS) : Option JVal :=
  match c.tokenFile with
  | none => none
  | some f =>
    if f = "" then none
    else
      match getRefreshTokenFs fs f with
      | some rt => if jvTruthy rt then some rt else none
      | none => none

/-- Sample record without a refresh token. -/
def recA : TokenInfo :=
  [("access_token", .s "AT1"), ("token_type", .s "bearer")]

/-- Sample record with a refresh token. -/
def recR : TokenInfo :=
  [("access_token", .s "AT2"), ("refresh_token", .s "RT2"), ("token_type", .s "bearer")]

/-- Sample record returned by a refresh or exchange. -/
def recN : TokenInfo :=
  [("access_token", .s "AT3"), ("refresh_token", .s "RT3")]

/-- The empty filesystem. -/
def fsNone : FS := fun _ => none

/-- A filesystem with one unparseable token file. -/
def fsBad : FS := fun n => if n = "bad.json" then some (.readable "oops") else none

/-- A filesystem holding a persisted client-credentials record in the
slot for scope `product.compact`. -/
def fsSlot : FS :=
  fun n => if n = ccSlotName "product.compact" then some (.readable (dumpJson recA)) else none

/-- A filesystem holding a persisted user record (with refresh token). -/
def fsUser : FS :=
  fun n => if n = "user.json" then some (.readable (dumpJson recR)) else none

/-- Oracle: everything succeeds; probes return 200. -/
def wOk : World :=
  ⟨fun _ => some 200, fun _ => .ok recA, fun _ => .ok recN, fun _ => .ok recN,
    false, .jsonBody "one", .jsonBody "two"⟩

/-- Oracle: probes return 401; first API request fails with a 401
`invalid_token` body; refresh and the retried request succeed. -/
def wRetry : World :=
  ⟨fun _ => some 401, fun _ => .ok recA, fun _ => .ok recN, fun _ => .ok recN,
    false, .err 401 (.jsonFields (some "invalid_token")), .jsonBody "two"⟩

/-- Oracle: probes raise; refreshes are rejected by the token endpoint. -/
def wDown : World :=
  ⟨fun _ => none, fun _ => .error .netError, fun _ => .error (.httpError 400 (.jsonFields none)),
    fun _ => .error .netError, false, .raiseNet, .raiseNet⟩

/-- Sample client holding a user token bound to slot `user.json`. -/
def cU : Client := ⟨some recR, some "user.json"⟩

/-- Sample client for the retry scenario: expired in-memory token, slot
`user.json` on disk holding a refresh token. -/
def cRetry : Client := ⟨some recA, some "user.json"⟩

/-- Flow configuration: listener times out. -/
def cfgTimeout : FlowCfg :=
  ⟨some "http://localhost:8000/callback", "STATE1", .timeout⟩

/-- Flow configuration: callback arrives with a wrong `state`. -/
def cfgMismatch : FlowCfg :=
  ⟨some "http://localhost:8000/callback", "STATE1", .callback "CODE" "EVIL"⟩

end KrogerSpec

namespace KrogerSpec

/-! ## Theorems -/

/-- C7: for every slot, loading from a slot that does not exist, or whose
content cannot be parsed (or cannot even be read), returns absent
(`None`) and never raises: every run of `load_token` evaluates to an `ok`
result, the `except (json.JSONDecodeError, IOError)` clause turning both
failure modes into `None`. -/
theorem load_token_never_raises (fs : FS) (file : String) :
    (∃ r, loadTokenExc fs file = .ok r) ∧
    (fs file = none → loadTokenExc fs file = .ok none) ∧
    (∀ content, fs file = some (.readable content) → parseJson content = none →
      loadTokenExc fs file = .ok none) ∧
    (fs file = some .unreadable → loadTokenExc fs file = .ok none) := by
  refine ⟨?_, ?_, ?_, ?_⟩
  · cases hf : fs file with
    | none => exact ⟨none, by simp [loadTokenExc, hf]⟩
    | some st =>
      cases st with
      | readable content =>
        cases hp : parseJson content with
        | none =>
          exact ⟨none, by simp [loadTokenExc, readFileExc, tryExceptLoad, hf, hp]⟩
        | some info =>
          exact ⟨some info, by simp [loadTokenExc, readFileExc, tryExceptLoad, hf, hp]⟩
      | unreadable =>
        exact ⟨none, by simp [loadTokenExc, readFileExc, tryExceptLoad, hf]⟩
  · intro hf
    simp [loadTokenExc, hf]
  · intro content hf hp
    simp [loadTokenExc, readFileExc, tryExceptLoad, hf, hp]
  · intro hf
    simp [loadTokenExc, readFileExc, tryExceptLoad, hf]

/-- Witness for C7 at concrete inputs: a corrupt slot and a missing slot
both load as absent. -/
theorem load_token_never_raises_witness :
    loadTokenExc fsBad "bad.json" = .ok none ∧
    loadTokenExc fsNone "missing.json" = .ok none := by
  constructor
  · exact (load_token_never_raises fsBad "bad.json").2.2.1 "oops" (by decide) (by decide)
  · exact (load_token_never_raises fsNone "missing.json").2.1 rfl

/-- C8: saving a record always writes it to the slot's backing location —
the write happens before `os.chmod`, so a chmod failure (modelled by the
`chmodFails` oracle bit, raising after the write) never prevents the
record from reaching the slot. -/
theorem save_token_write_survives_chmod (fs : FS) (file : String)
    (info : TokenInfo) (chmodFails : Bool) :
    (saveToken fs file info chmodFails).1 file = some (.readable (dumpJson info)) ∧
    (chmodFails = true → (saveToken fs file info chmodFails).2 = .error .osError) := by
  constructor
  · simp [saveToken, saveTokenFs, fsSet]
  · intro h
    simp [saveToken, h]

/-- Witness for C8: on a platform whose chmod raises, the record is still
written to the slot. -/
theorem save_token_write_survives_chmod_witness :
    (saveToken fsNone "t.json" recA true).1 "t.json" = some (.readable (dumpJson recA)) ∧
    (saveToken fsNone "t.json" recA true).2 = .error .osError :=
  ⟨(save_token_write_survives_chmod fsNone "t.json" recA true).1,
   (save_token_write_survives_chmod fsNone "t.json" recA true).2 rfl⟩

end KrogerSpec

namespace KrogerSpec

/-! ## Round-trip lemmas for the JSON embedding -/


theorem toNat_ofNat_of_valid {n : Nat} (h : n.isValidChar) : (Char.ofNat n).toNat = n := by
  simp [Char.ofNat, h, Char.toNat, Char.ofNatAux, UInt32.toNat, BitVec.toNat_ofNatLt]

theorem char_range (c : Char) : c.toNat < 55296 ∨ (57343 < c.toNat ∧ c.toNat < 1114112) := by
  have h := c.valid
  unfold UInt32.isValidChar Nat.isValidChar at h
  unfold Char.toNat
  omega

theorem valid_of_lt {n : Nat} (h : n < 55296) : n.isValidChar := by
  unfold Nat.isValidChar
  omega

theorem valid_of_between {n : Nat} (h1 : 57343 < n) (h2 : n < 1114112) : n.isValidChar := by
  unfold Nat.isValidChar
  omega

theorem ofNat_toNat_self (c : Char) : Char.ofNat c.toNat = c := Char.ofNat_toNat c

theorem hexVal_hexDigitChar {d : Nat} (h : d < 16) : hexVal (hexDigitChar d) = some d := by
  interval_cases d <;> decide

theorem parseHex4_hex4 {n : Nat} (h : n < 65536) (rest : List Char) :
    parseHex4 (hex4 n ++ rest) = some (n, rest) := by
  have h1 : n / 4096 % 16 < 16 := Nat.mod_lt _ (by norm_num)
  have h2 : n / 256 % 16 < 16 := Nat.mod_lt _ (by norm_num)
  have h3 : n / 16 % 16 < 16 := Nat.mod_lt _ (by norm_num)
  have h4 : n % 16 < 16 := Nat.mod_lt _ (by norm_num)
  simp [hex4, parseHex4, hexVal_hexDigitChar h1, hexVal_hexDigitChar h2,
    hexVal_hexDigitChar h3, hexVal_hexDigitChar h4]
  omega

theorem escChar_length_pos (c : Char) : 0 < (escChar c).length := by
  unfold escChar
  repeat' split
  all_goals simp [hex4]

theorem le_escList_length (s : List Char) : s.length ≤ (escList s).length := by
  induction s with
  | nil => simp [escList]
  | cons c cs ih =>
    have := escChar_length_pos c
    simp [escList]
    omega


theorem parseUEscape_bmp {v : Nat} (h9 : v < 65536)
    (hs1 : ¬(55296 ≤ v ∧ v < 56320)) (hs2 : ¬(56320 ≤ v ∧ v < 57344))
    (tail : List Char) :
    parseUEscape (hex4 v ++ tail) = some (Char.ofNat v, tail) := by
  simp [parseUEscape, parseHex4_hex4 h9, hs1, hs2]

theorem parseUEscape_pair (r r3 r4 : List Char) (h lo : Nat)
    (hh : parseHex4 r = some (h, '\\' :: 'u' :: r3))
    (hs1 : 55296 ≤ h ∧ h < 56320)
    (hl : parseHex4 r3 = some (lo, r4))
    (hs2 : 56320 ≤ lo ∧ lo < 57344) :
    parseUEscape r =
      some (Char.ofNat (65536 + (h - 55296) * 1024 + (lo - 56320)), r4) := by
  simp [parseUEscape, hh, hs1, hl, hs2]

theorem parseUEscape_astral {v : Nat} (hge : 65536 ≤ v) (hlt : v < 1114112)
    (tail : List Char) :
    parseUEscape (hex4 (55296 + (v - 65536) / 1024) ++
      '\\' :: 'u' :: (hex4 (56320 + (v - 65536) % 1024) ++ tail)) =
      some (Char.ofNat v, tail) := by
  have hmod := Nat.mod_lt (v - 65536) (show 0 < 1024 by norm_num)
  set A := 55296 + (v - 65536) / 1024 with hA
  set B := 56320 + (v - 65536) % 1024 with hB
  have hhi : A < 65536 := by omega
  have hlo : B < 65536 := by omega
  have hs1 : 55296 ≤ A ∧ A < 56320 := by omega
  have hs2 : 56320 ≤ B ∧ B < 57344 := by omega
  have hh := parseHex4_hex4 hhi ('\\' :: 'u' :: (hex4 B ++ tail))
  have hl := parseHex4_hex4 hlo tail
  have hstep := parseUEscape_pair _ _ _ _ _ hh hs1 hl hs2
  rw [show 65536 + (A - 55296) * 1024 + (B - 56320) = v from by omega] at hstep
  exact hstep

theorem parseStrBody_cons_short (e d : Char) (f : Nat) (tail : List Char)
    (hne : ¬ e = 'u') (hud : unescChar e = some d) :
    parseStrBody (f + 1) ('\\' :: e :: tail) =
      match parseStrBody f tail with
      | none => none
      | some (s, r) => some (d :: s, r) := by
  cases hp : parseStrBody f tail with
  | none => simp [parseStrBody, hne, hud, hp]
  | some pr => simp [parseStrBody, hne, hud, hp]

theorem parseStrBody_cons_plain (c : Char) (f : Nat) (tail : List Char)
    (hq : ¬ c = '"') (hb : ¬ c = '\\') :
    parseStrBody (f + 1) (c :: tail) =
      match parseStrBody f tail with
      | none => none
      | some (s, r) => some (c :: s, r) := by
  cases hp : parseStrBody f tail with
  | none => simp [parseStrBody, hq, hb, hp]
  | some pr => simp [parseStrBody, hq, hb, hp]

theorem parseStrBody_cons_uesc (r r2 : List Char) (d : Char) (f : Nat)
    (hu : parseUEscape r = some (d, r2)) :
    parseStrBody (f + 1) ('\\' :: 'u' :: r) =
      match parseStrBody f r2 with
      | none => none
      | some (s, r3) => some (d :: s, r3) := by
  cases hp : parseStrBody f r2 with
  | none => simp [parseStrBody, hu, hp]
  | some pr => simp [parseStrBody, hu, hp]

theorem parseStrBody_escChar (c : Char) (f : Nat) (tail : List Char) :
    parseStrBody (f + 1) (escChar c ++ tail) =
      match parseStrBody f tail with
      | none => none
      | some (s, r) => some (c :: s, r) := by
  by_cases h1 : c = '"'
  · subst h1
    have he : escChar '"' = ['\\', '"'] := by decide
    rw [he]
    exact parseStrBody_cons_short '"' '"' f tail (by decide) (by decide)
  · by_cases h2 : c = '\\'
    · subst h2
      have he : escChar '\\' = ['\\', '\\'] := by decide
      rw [he]
      exact parseStrBody_cons_short '\\' '\\' f tail (by decide) (by decide)
    · by_cases h3 : c.toNat = 8
      · have hc : Char.ofNat 8 = c := by rw [← h3, ofNat_toNat_self]
        subst hc
        have he : escChar (Char.ofNat 8) = ['\\', 'b'] := by decide
        rw [he]
        exact parseStrBody_cons_short 'b' (Char.ofNat 8) f tail (by decide) (by decide)
      · by_cases h4 : c.toNat = 9
        · have hc : Char.ofNat 9 = c := by rw [← h4, ofNat_toNat_self]
          subst hc
          have he : escChar (Char.ofNat 9) = ['\\', 't'] := by decide
          rw [he]
          exact parseStrBody_cons_short 't' (Char.ofNat 9) f tail (by decide) (by decide)
        · by_cases h5 : c.toNat = 10
          · have hc : Char.ofNat 10 = c := by rw [← h5, ofNat_toNat_self]
            subst hc
            have he : escChar (Char.ofNat 10) = ['\\', 'n'] := by decide
            rw [he]
            exact parseStrBody_cons_short 'n' (Char.ofNat 10) f tail (by decide) (by decide)
          · by_cases h6 : c.toNat = 12
            · have hc : Char.ofNat 12 = c := by rw [← h6, ofNat_toNat_self]
              subst hc
              have he : escChar (Char.ofNat 12) = ['\\', 'f'] := by decide
              rw [he]
              exact parseStrBody_cons_short 'f' (Char.ofNat 12) f tail (by decide) (by decide)
            · by_cases h7 : c.toNat = 13
              · have hc : Char.ofNat 13 = c := by rw [← h7, ofNat_toNat_self]
                subst hc
                have he : escChar (Char.ofNat 13) = ['\\', 'r'] := by decide
                rw [he]
                exact parseStrBody_cons_short 'r' (Char.ofNat 13) f tail (by decide) (by decide)
              · by_cases h8 : 32 ≤ c.toNat ∧ c.toNat ≤ 126
                · have he : escChar c = [c] := by
                    simp [escChar, h1, h2, h3, h4, h5, h6, h7, h8]
                  rw [he]
                  exact parseStrBody_cons_plain c f tail h1 h2
                · by_cases h9 : c.toNat < 65536
                  · have hrange := char_range c
                    have hs1 : ¬(55296 ≤ c.toNat ∧ c.toNat < 56320) := by omega
                    have hs2 : ¬(56320 ≤ c.toNat ∧ c.toNat < 57344) := by omega
                    have hu := parseUEscape_bmp h9 hs1 hs2 tail
                    rw [ofNat_toNat_self] at hu
                    have he : escChar c = '\\' :: 'u' :: hex4 c.toNat := by
                      simp [escChar, h1, h2, h3, h4, h5, h6, h7, h8, h9]
                    rw [he]
                    simp only [List.cons_append]
                    exact parseStrBody_cons_uesc _ _ c f hu
                  · have hrange := char_range c
                    have hge : 65536 ≤ c.toNat := by omega
                    have hlt : c.toNat < 1114112 := by omega
                    have hu := parseUEscape_astral hge hlt tail
                    rw [ofNat_toNat_self] at hu
                    have he : escChar c =
                        ('\\' :: 'u' :: hex4 (55296 + (c.toNat - 65536) / 1024)) ++
                          ('\\' :: 'u' :: hex4 (56320 + (c.toNat - 65536) % 1024)) := by
                      simp [escChar, h1, h2, h3, h4, h5, h6, h7, h8, h9]
                    rw [he]
                    simp only [List.cons_append, List.append_assoc]
                    exact parseStrBody_cons_uesc _ _ c f hu

theorem parseStrBody_escList (s : List Char) : ∀ (fuel : Nat) (rest : List Char),
    s.length < fuel →
    parseStrBody fuel (escList s ++ '"' :: rest) = some (s, rest) := by
  induction s with
  | nil =>
    intro fuel rest hf
    obtain ⟨f, rfl⟩ : ∃ f, fuel = f + 1 := ⟨fuel - 1, by omega⟩
    simp [escList, parseStrBody]
  | cons c cs ih =>
    intro fuel rest hf
    obtain ⟨f, rfl⟩ : ∃ f, fuel = f + 1 := ⟨fuel - 1, by omega⟩
    have hcs : cs.length < f := by simp at hf; omega
    have hrec := ih f rest hcs
    rw [escList, List.append_assoc, parseStrBody_escChar, hrec]


theorem digitChar_toNat {d : Nat} (h : d < 10) : (digitChar d).toNat = 48 + d := by
  unfold digitChar
  exact toNat_ofNat_of_valid (valid_of_lt (by omega))

theorem digitChar_isDigit {d : Nat} (h : d < 10) : (digitChar d).isDigit = true := by
  interval_cases d <;> decide

theorem foldl_digitChar (R : List Nat) (hR : ∀ d ∈ R, d < 10) : ∀ (a : Nat),
    (R.map digitChar).foldl (fun x c => 10 * x + (c.toNat - 48)) a =
      Nat.ofDigits 10 R.reverse + a * 10 ^ R.length := by
  induction R with
  | nil => intro a; simp
  | cons d R ih =>
    intro a
    have hd : d < 10 := hR d (by simp)
    have hR' : ∀ x ∈ R, x < 10 := fun x hx => hR x (by simp [hx])
    simp only [List.map_cons, List.foldl_cons, List.reverse_cons, List.length_cons]
    rw [ih hR', digitChar_toNat hd]
    rw [Nat.ofDigits_append]
    simp [Nat.ofDigits_singleton, pow_succ]
    ring

theorem digitsToNat_printNat (n : Nat) : digitsToNat (printNat n) = n := by
  by_cases h : n = 0
  · subst h
    decide
  · unfold printNat digitsToNat
    simp only [h, if_false]
    have hlt : ∀ d ∈ (Nat.digits 10 n).reverse, d < 10 := fun d hd =>
      Nat.digits_lt_base (by norm_num) (List.mem_reverse.mp hd)
    rw [foldl_digitChar _ hlt 0]
    simp [Nat.ofDigits_digits]

theorem printNat_ne_nil (n : Nat) : printNat n ≠ [] := by
  unfold printNat
  split
  · simp
  · rename_i h
    simp [Nat.digits_ne_nil_iff_ne_zero, h]

theorem printNat_all_digits (n : Nat) : ∀ c ∈ printNat n, c.isDigit = true := by
  unfold printNat
  split
  · intro c hc
    simp at hc
    subst hc
    decide
  · intro c hc
    simp at hc
    obtain ⟨d, hd, rfl⟩ := hc
    exact digitChar_isDigit (Nat.digits_lt_base (by norm_num) hd)

theorem takeWhile_all_append {p : Char → Bool} (l rest : List Char)
    (hl : ∀ c ∈ l, p c = true)
    (hr : ∀ c, rest.head? = some c → p c = false) :
    (l ++ rest).takeWhile p = l ∧ (l ++ rest).dropWhile p = rest := by
  induction l with
  | nil =>
    cases rest with
    | nil => simp
    | cons r rs =>
      have := hr r rfl
      simp [List.takeWhile_cons, List.dropWhile_cons, this]
  | cons c cs ih =>
    have hc := hl c (by simp)
    have ih2 := ih (fun x hx => hl x (by simp [hx]))
    simp [List.takeWhile_cons, List.dropWhile_cons, hc, ih2.1, ih2.2]

theorem parseNatCs_printNat (n : Nat) (rest : List Char)
    (hr : ∀ c, rest.head? = some c → c.isDigit = false) :
    parseNatCs (printNat n ++ rest) = some (n, rest) := by
  have h := takeWhile_all_append (printNat n) rest (printNat_all_digits n) hr
  unfold parseNatCs
  rw [h.1, h.2]
  simp [printNat_ne_nil n, List.isEmpty_iff]
  exact digitsToNat_printNat n


theorem isWs_false_of_isDigit {c : Char} (h : c.isDigit = true) : isWs c = false := by
  by_contra hw
  have hw2 : isWs c = true := by
    cases hb : isWs c
    · exact absurd hb hw
    · rfl
  unfold isWs at hw2
  simp only [decide_eq_true_eq] at hw2
  rcases hw2 with h1 | h1 | h1 | h1 <;> (subst h1; exact absurd h (by decide))

theorem mk_data_self (v : String) : String.mk v.data = v := rfl

theorem parseVal_printJVal (v : JVal) (rest : List Char)
    (hr : ∀ c, rest.head? = some c → c.isDigit = false) :
    parseVal (printJVal v ++ rest) = some (v, rest) := by
  cases v with
  | s str =>
    show parseVal (('"' :: (escList str.data ++ ['"'])) ++ rest) = _
    simp only [List.cons_append, List.append_assoc, List.singleton_append]
    simp only [parseVal, if_pos rfl]
    have hsb := parseStrBody_escList str.data
      ((escList str.data ++ '"' :: rest).length + 1) rest
      (by
        have h1 := le_escList_length str.data
        have h2 : (escList str.data ++ '"' :: rest).length =
            (escList str.data).length + (rest.length + 1) := by
          rw [List.length_append]
          rfl
        omega)
    simp only [List.length_append, List.length_cons] at hsb
    simp [hsb, mk_data_self]
  | i iv =>
    by_cases hneg : iv < 0
    · show parseVal (printInt iv ++ rest) = _
      unfold printInt
      simp only [hneg, if_true, List.cons_append]
      have hpn := parseNatCs_printNat iv.natAbs rest hr
      have habs : ((iv.natAbs : ℕ) : ℤ) = -iv := by
        rcases Int.natAbs_eq iv with h | h <;> omega
      simp [parseVal, hpn, habs]
    · show parseVal (printInt iv ++ rest) = _
      unfold printInt
      simp only [hneg, if_false]
      obtain ⟨c, cs, hP⟩ : ∃ c cs, printNat iv.toNat = c :: cs := by
        cases hp : printNat iv.toNat with
        | nil => exact absurd hp (printNat_ne_nil _)
        | cons c cs => exact ⟨c, cs, rfl⟩
      have hcd : c.isDigit = true := printNat_all_digits iv.toNat c (by rw [hP]; simp)
      have hq : ¬ c = '"' := by intro hc; rw [hc] at hcd; exact absurd hcd (by decide)
      have ht : ¬ c = 't' := by intro hc; rw [hc] at hcd; exact absurd hcd (by decide)
      have hf : ¬ c = 'f' := by intro hc; rw [hc] at hcd; exact absurd hcd (by decide)
      have hn : ¬ c = 'n' := by intro hc; rw [hc] at hcd; exact absurd hcd (by decide)
      have hm : ¬ c = '-' := by intro hc; rw [hc] at hcd; exact absurd hcd (by decide)
      rw [hP]
      have hpn := parseNatCs_printNat iv.toNat rest hr
      rw [hP] at hpn
      simp only [List.cons_append] at hpn ⊢
      simp [parseVal, hq, ht, hf, hn, hm, hpn]
      omega
  | b bv =>
    cases bv with
    | true => simp [printJVal, parseVal]
    | false => simp [printJVal, parseVal]
  | null => simp [printJVal, parseVal]

theorem skipWs_cons_of_not {c : Char} (cs : List Char) (h : isWs c = false) :
    skipWs (c :: cs) = c :: cs := by
  simp [skipWs, List.dropWhile_cons, h]

theorem skipWs_printJVal (v : JVal) (z : List Char) :
    skipWs (printJVal v ++ z) = printJVal v ++ z := by
  cases v with
  | s str =>
    simp only [printJVal, List.cons_append]
    exact skipWs_cons_of_not _ (by decide)
  | i iv =>
    simp only [printJVal]
    by_cases hneg : iv < 0
    · unfold printInt
      simp only [hneg, if_true, List.cons_append]
      exact skipWs_cons_of_not _ (by decide)
    · unfold printInt
      simp only [hneg, if_false]
      obtain ⟨c, cs, hP⟩ : ∃ c cs, printNat iv.toNat = c :: cs := by
        cases hp : printNat iv.toNat with
        | nil => exact absurd hp (printNat_ne_nil _)
        | cons c cs => exact ⟨c, cs, rfl⟩
      have hcd : c.isDigit = true := printNat_all_digits iv.toNat c (by rw [hP]; simp)
      rw [hP]
      simp only [List.cons_append]
      exact skipWs_cons_of_not _ (isWs_false_of_isDigit hcd)
  | b bv =>
    cases bv <;>
      (simp only [printJVal, List.cons_append]; exact skipWs_cons_of_not _ (by decide))
  | null =>
    simp only [printJVal, List.cons_append]
    exact skipWs_cons_of_not _ (by decide)


theorem printMembers_cons_head (k : String) (v : JVal) (xs : List (String × JVal)) :
    ∃ t, printMembers ((k, v) :: xs) = '"' :: t := by
  cases xs with
  | nil => exact ⟨_, rfl⟩
  | cons y ys => exact ⟨_, rfl⟩

theorem le_printMembers_length (l : List (String × JVal)) :
    l.length ≤ (printMembers l).length := by
  induction l with
  | nil => simp [printMembers]
  | cons kv tl ih =>
    obtain ⟨k, v⟩ := kv
    cases tl with
    | nil => simp [printMembers, printMember]
    | cons kv2 tl2 =>
      have h1 : 1 ≤ (printMember k v).length := by simp [printMember]
      simp only [List.length_cons] at ih
      simp only [printMembers, List.length_append, List.length_cons]
      omega

theorem parseStrBody_escList_len (s rest : List Char) :
    parseStrBody ((escList s ++ '"' :: rest).length + 1) (escList s ++ '"' :: rest) =
      some (s, rest) := by
  apply parseStrBody_escList
  have := le_escList_length s
  rw [List.length_append]
  simp
  omega

theorem skipWs_cons_ws {c : Char} (cs : List Char) (h : isWs c = true) :
    skipWs (c :: cs) = skipWs cs := by
  simp [skipWs, List.dropWhile_cons, h]

theorem parseMembers_print (kvs : List (String × JVal)) : ∀ (fuel : Nat) (rest : List Char),
    kvs ≠ [] → kvs.length < fuel →
    parseMembers fuel (printMembers kvs ++ '\n' :: '\x7d' :: rest) = some (kvs, rest) := by
  induction kvs with
  | nil =>
    intro fuel rest hne _
    exact absurd rfl hne
  | cons kv tl ih =>
    intro fuel rest _ hf
    obtain ⟨k, v⟩ := kv
    obtain ⟨f, rfl⟩ : ∃ f, fuel = f + 1 := ⟨fuel - 1, by omega⟩
    cases tl with
    | nil =>
      show parseMembers (f + 1)
        (('"' :: (escList k.data ++ ('"' :: ':' :: ' ' :: printJVal v))) ++
          '\n' :: '\x7d' :: rest) = _
      simp only [List.cons_append, List.append_assoc, parseMembers]
      rw [parseStrBody_escList_len]
      try dsimp only
      rw [skipWs_cons_of_not _ (by decide : isWs ':' = false)]
      try dsimp only
      rw [skipWs_cons_ws _ (by decide : isWs ' ' = true), skipWs_printJVal]
      rw [parseVal_printJVal v _ (by intro c hc; simp at hc; subst hc; decide)]
      try dsimp only
      rw [skipWs_cons_ws _ (by decide : isWs '\n' = true),
        skipWs_cons_of_not _ (by decide : isWs '\x7d' = false)]
      simp [mk_data_self]
    | cons kv2 tl2 =>
      obtain ⟨k2, v2⟩ := kv2
      show parseMembers (f + 1)
        (('"' :: (escList k.data ++ ('"' :: ':' :: ' ' :: printJVal v)) ++
          (',' :: '\n' :: ' ' :: ' ' :: printMembers ((k2, v2) :: tl2))) ++
          '\n' :: '\x7d' :: rest) = _
      simp only [List.cons_append, List.append_assoc, parseMembers]
      rw [parseStrBody_escList_len]
      try dsimp only
      rw [skipWs_cons_of_not _ (by decide : isWs ':' = false)]
      try dsimp only
      rw [skipWs_cons_ws _ (by decide : isWs ' ' = true), skipWs_printJVal]
      rw [parseVal_printJVal v _ (by intro c hc; simp at hc; subst hc; decide)]
      try dsimp only
      rw [skipWs_cons_of_not _ (by decide : isWs ',' = false)]
      try dsimp only
      have hsk : skipWs ('\n' :: ' ' :: ' ' ::
          (printMembers ((k2, v2) :: tl2) ++ ('\n' :: '\x7d' :: rest))) =
          printMembers ((k2, v2) :: tl2) ++ ('\n' :: '\x7d' :: rest) := by
        obtain ⟨t, ht⟩ := printMembers_cons_head k2 v2 tl2
        rw [ht]
        simp only [List.cons_append]
        rw [skipWs_cons_ws _ (by decide : isWs '\n' = true),
          skipWs_cons_ws _ (by decide : isWs ' ' = true),
          skipWs_cons_ws _ (by decide : isWs ' ' = true),
          skipWs_cons_of_not _ (by decide : isWs '"' = false)]
      rw [hsk]
      rw [ih f rest (by simp) (by simp at hf ⊢; omega)]
      simp [mk_data_self]


theorem parseJson_dumpJson (info : TokenInfo) : parseJson (dumpJson info) = some info := by
  cases info with
  | nil => decide
  | cons kv tl =>
    obtain ⟨k, v⟩ := kv
    obtain ⟨t, ht⟩ := printMembers_cons_head k v tl
    show parseJson (String.mk ('\x7b' :: '\n' :: ' ' :: ' ' ::
      (printMembers ((k, v) :: tl) ++ ('\n' :: ['\x7d'])))) = _
    simp only [parseJson]
    try dsimp only
    rw [skipWs_cons_of_not _ (by decide : isWs '\x7b' = false)]
    try dsimp only
    have hsk : skipWs ('\n' :: ' ' :: ' ' ::
        (printMembers ((k, v) :: tl) ++ ('\n' :: ['\x7d']))) =
        printMembers ((k, v) :: tl) ++ ('\n' :: ['\x7d']) := by
      rw [ht]
      simp only [List.cons_append]
      rw [skipWs_cons_ws _ (by decide : isWs '\n' = true),
        skipWs_cons_ws _ (by decide : isWs ' ' = true),
        skipWs_cons_ws _ (by decide : isWs ' ' = true),
        skipWs_cons_of_not _ (by decide : isWs '"' = false)]
    rw [hsk, ht]
    simp only [List.cons_append]
    try dsimp only
    have hback : ('"' :: (t ++ ('\n' :: ['\x7d']))) =
        printMembers ((k, v) :: tl) ++ ('\n' :: ['\x7d']) := by
      rw [ht]
      simp [List.cons_append]
    rw [hback]
    have hlen : ((k, v) :: tl).length <
        (printMembers ((k, v) :: tl) ++ ('\n' :: ['\x7d'])).length + 1 := by
      have := le_printMembers_length ((k, v) :: tl)
      rw [List.length_append]
      omega
    rw [parseMembers_print ((k, v) :: tl)
      ((printMembers ((k, v) :: tl) ++ ('\n' :: ['\x7d'])).length + 1) []
      (by simp) hlen]
    simp
    rfl


/-- C9: saving a token record to a slot and then loading from that slot
returns a record equal to the saved one in all fields, whatever the prior
filesystem state and whether or not the chmod step raises. -/
theorem save_then_load_roundtrip (fs : FS) (file : String) (info : TokenInfo)
    (chmodFails : Bool) :
    loadTokenExc ((saveToken fs file info chmodFails).1) file = .ok (some info) := by
  have hfs : (saveToken fs file info chmodFails).1 file =
      some (.readable (dumpJson info)) := by
    simp [saveToken, saveTokenFs, fsSet]
  simp [loadTokenExc, readFileExc, tryExceptLoad, hfs, parseJson_dumpJson]

end KrogerSpec

namespace KrogerSpec


theorem testTokenRefreshPath_spec (w : World) (c : Client) (fs : FS) (rt : JVal) :
    (testTokenRefreshPath w c fs rt).1 = refreshWouldSucceed w rt ∧
    countRefreshCalls (testTokenRefreshPath w c fs rt).2.2.2 = 1 := by
  unfold testTokenRefreshPath refreshTokenM refreshWouldSucceed countRefreshCalls
  cases hr : w.tokenRefresh rt with
  | ok newInfo => cases hc : w.chmodFails <;> simp
  | error e => simp

/-- C2: validity of `test_token`.  The probe succeeding (HTTP 200) yields
`True` with no refresh attempt; with no `refresh_token` field, any failing
or raising probe yields `False`; with a `refresh_token` field, any failing
or raising probe triggers exactly one inline refresh, and the result is
`True` exactly when that refresh call completes.  The embedding is a total
function returning `Bool`, mirroring that `test_token` catches every
network/auth exception and never propagates one. -/
theorem test_token_validity (w : World) (c : Client) (fs : FS) (info : TokenInfo) :
    (∀ tok, authToken (some info) = some tok → w.probe tok = some 200 →
       (testToken w c fs info).1 = true ∧
       countRefreshCalls (testToken w c fs info).2.2.2 = 0) ∧
    (hasKey info "refresh_token" = false →
       (authToken (some info) = none → (testToken w c fs info).1 = false) ∧
       (∀ tok, authToken (some info) = some tok → w.probe tok = none →
          (testToken w c fs info).1 = false) ∧
       (∀ tok st, authToken (some info) = some tok → w.probe tok = some st → st ≠ 200 →
          (testToken w c fs info).1 = false)) ∧
    (hasKey info "refresh_token" = true →
       (authToken (some info) = none ∨
        (∃ tok, authToken (some info) = some tok ∧ w.probe tok = none) ∨
        (∃ tok st, authToken (some info) = some tok ∧ w.probe tok = some st ∧ st ≠ 200)) →
       (testToken w c fs info).1 =
         refreshWouldSucceed w ((getKey info "refresh_token").getD .null) ∧
       countRefreshCalls (testToken w c fs info).2.2.2 = 1) := by
  refine ⟨?_, ?_, ?_⟩
  · intro tok htok hprobe
    cases hk : hasKey info "refresh_token" <;>
      simp [testToken, hk, htok, hprobe, countRefreshCalls]
  · intro hk
    refine ⟨?_, ?_, ?_⟩
    · intro htok
      simp [testToken, hk, htok]
    · intro tok htok hpr
      simp [testToken, hk, htok, hpr]
    · intro tok st htok hpr hne
      simp [testToken, hk, htok, hpr, hne]
  · intro hk hfail
    have hs1 := testTokenRefreshPath_spec w ⟨some info, c.tokenFile⟩ fs
      ((getKey info "refresh_token").getD .null)
    have hs2 := testTokenRefreshPath_spec w c fs
      ((getKey info "refresh_token").getD .null)
    rcases hfail with htok | ⟨tok, htok, hpr⟩ | ⟨tok, st, htok, hpr, hne⟩
    · simpa [testToken, hk, htok] using hs1
    · simp [testToken, hk, htok, hpr, countRefreshCalls, List.count_cons] at hs1 ⊢
      exact hs1
    · simp [testToken, hk, htok, hpr, hne, countRefreshCalls, List.count_cons] at hs2 ⊢
      exact hs2


/-- Witness for C2 at concrete inputs: a probe returning 200 validates the
record; with the network down (probe raising) and the refresh rejected,
the record with a refresh token is reported invalid after exactly one
refresh attempt. -/
theorem test_token_validity_witness :
    (testToken wOk cU fsNone recR).1 = true ∧
    (testToken wDown cU fsNone recR).1 = false ∧
    countRefreshCalls (testToken wDown cU fsNone recR).2.2.2 = 1 := by
  refine ⟨((test_token_validity wOk cU fsNone recR).1 (JVal.s "AT2")
    (by decide) (by decide)).1, ?_, ?_⟩
  · have h := ((test_token_validity wDown cU fsNone recR).2.2 (by decide))
      (Or.inr (Or.inl ⟨JVal.s "AT2", by decide, by decide⟩))
    exact h.1.trans (by decide)
  · exact (((test_token_validity wDown cU fsNone recR).2.2 (by decide))
      (Or.inr (Or.inl ⟨JVal.s "AT2", by decide, by decide⟩))).2

/-- Counterexample to C10 as stated: for the record `recA` (no refresh
token) probed while the client holds `recR`, a probe that raises leaves
`self.token_info` set to the probed record — the source restores the
original only on the non-exception path, so the validity test does switch
the client's active token on this outcome. -/
theorem test_token_clobbers_on_probe_exception :
    (testToken wDown cU fsNone recA).2.1.tokenInfo = some recA ∧
    (testToken wDown cU fsNone recA).2.1.tokenInfo ≠ cU.tokenInfo := by
  constructor
  · decide
  · decide

/-- C10 as amended: for a record with no refresh token, the validity test
leaves the client's `token_info` unchanged whenever the probe returns an
HTTP response (any status); when building the auth header raises or the
probe request raises, `token_info` is left set to the probed record. -/
theorem test_token_frame_without_refresh (w : World) (c : Client) (fs : FS)
    (info : TokenInfo) (hnr : hasKey info "refresh_token" = false) :
    (∀ tok st, authToken (some info) = some tok → w.probe tok = some st →
       (testToken w c fs info).2.1.tokenInfo = c.tokenInfo) ∧
    (authToken (some info) = none →
       (testToken w c fs info).2.1.tokenInfo = some info) ∧
    (∀ tok, authToken (some info) = some tok → w.probe tok = none →
       (testToken w c fs info).2.1.tokenInfo = some info) := by
  refine ⟨?_, ?_, ?_⟩
  · intro tok st htok hpr
    simp [testToken, hnr, htok, hpr]
  · intro htok
    simp [testToken, hnr, htok]
  · intro tok htok hpr
    simp [testToken, hnr, htok, hpr]

/-- Witness for the amended C10: a 401 probe response leaves the client's
token untouched, and a raising probe leaves it set to the probed record. -/
theorem test_token_frame_without_refresh_witness :
    (testToken wRetry cU fsNone recA).2.1.tokenInfo = cU.tokenInfo ∧
    (testToken wDown cU fsNone recA).2.1.tokenInfo = some recA := by
  constructor
  · exact (test_token_frame_without_refresh wRetry cU fsNone recA (by decide)).1
      (JVal.s "AT1") 401 (by decide) (by decide)
  · exact (test_token_frame_without_refresh wDown cU fsNone recA (by decide)).2.2
      (JVal.s "AT1") (by decide) (by decide)

end KrogerSpec

namespace KrogerSpec


theorem testToken_probe200 (w : World) (c : Client) (fs : FS) (info : TokenInfo)
    (tok : JVal) (htok : authToken (some info) = some tok)
    (hpr : w.probe tok = some 200) :
    testToken w c fs info = (true, c, fs, [.probeCall]) := by
  cases hk : hasKey info "refresh_token" <;> simp [testToken, hk, htok, hpr]

theorem testToken_no_cc (w : World) (c : Client) (fs : FS) (info : TokenInfo) :
    countCCCalls (testToken w c fs info).2.2.2 = 0 := by
  have hpath : ∀ c2, countCCCalls (testTokenRefreshPath w c2 fs
      ((getKey info "refresh_token").getD .null)).2.2.2 = 0 := by
    intro c2
    unfold testTokenRefreshPath refreshTokenM countCCCalls
    cases hr : w.tokenRefresh ((getKey info "refresh_token").getD .null) with
    | ok newInfo => cases hc : w.chmodFails <;> simp
    | error e => simp
  cases hk : hasKey info "refresh_token"
  · cases hat : authToken (some info) with
    | none => simp [testToken, hk, hat, countCCCalls]
    | some tok =>
      cases hpr : w.probe tok with
      | none => simp [testToken, hk, hat, hpr, countCCCalls]
      | some st =>
        by_cases hst : st = 200 <;>
          simp [testToken, hk, hat, hpr, hst, countCCCalls]
  · cases hat : authToken (some info) with
    | none => simpa [testToken, hk, hat, countCCCalls, List.count_cons] using hpath _
    | some tok =>
      cases hpr : w.probe tok with
      | none =>
        simpa [testToken, hk, hat, hpr, countCCCalls, List.count_cons] using hpath _
      | some st =>
        by_cases hst : st = 200
        · simp [testToken, hk, hat, hpr, hst, countCCCalls]
        · simpa [testToken, hk, hat, hpr, hst, countCCCalls, List.count_cons] using hpath _


/-- C3: the client-credentials flow with its deterministic scope-derived
slot.  A persisted record that passes the live probe is returned as-is
with zero token-endpoint calls and no filesystem change; a
client-credentials exchange is only ever performed when the slot is absent
or its record fails the validity test; and when the exchange happens its
result is persisted to the same slot. -/
theorem client_credentials_token_reuse (w : World) (c : Client) (fs : FS)
    (scope : String) :
    (∀ info tok, loadTok fs (ccSlotName scope) = some info →
       authToken (some info) = some tok → w.probe tok = some 200 →
       (getTokenCC w c fs scope).1 = .ok info ∧
       countTokenCalls (getTokenCC w c fs scope).2.2.2 = 0 ∧
       (getTokenCC w c fs scope).2.2.1 = fs) ∧
    (countCCCalls (getTokenCC w c fs scope).2.2.2 ≠ 0 →
       loadTok fs (ccSlotName scope) = none ∨
       (∃ info, loadTok fs (ccSlotName scope) = some info ∧
          (testToken w ⟨c.tokenInfo, some (ccSlotName scope)⟩ fs info).1 = false)) ∧
    (∀ new, w.tokenCC scope = .ok new →
       (loadTok fs (ccSlotName scope) = none ∨
        (∃ info, loadTok fs (ccSlotName scope) = some info ∧
           (testToken w ⟨c.tokenInfo, some (ccSlotName scope)⟩ fs info).1 = false)) →
       (getTokenCC w c fs scope).2.2.1 (ccSlotName scope) =
         some (.readable (dumpJson new))) := by
  refine ⟨?_, ?_, ?_⟩
  · intro info tok hload htok hpr
    have hne : info ≠ [] := by
      intro h
      subst h
      simp [authToken] at htok
    simp [getTokenCC, hload, hne,
      testToken_probe200 w ⟨c.tokenInfo, some (ccSlotName scope)⟩ fs info tok htok hpr,
      countTokenCalls, isTokenCall]
  · intro hcc
    cases hload : loadTok fs (ccSlotName scope) with
    | none => exact Or.inl rfl
    | some info =>
      by_cases hi : info = []
      · subst hi
        exact Or.inr ⟨[], rfl, rfl⟩
      · cases hvalid : (testToken w ⟨c.tokenInfo, some (ccSlotName scope)⟩ fs info).1 with
        | true =>
          exfalso
          apply hcc
          have hno := testToken_no_cc w ⟨c.tokenInfo, some (ccSlotName scope)⟩ fs info
          simp [getTokenCC, hload, hi, hvalid]
          exact hno
        | false => exact Or.inr ⟨info, rfl, hvalid⟩
  · intro new hnew hcase
    cases hload : loadTok fs (ccSlotName scope) with
    | none =>
      simp [getTokenCC, hload, hnew]
      cases hc : w.chmodFails <;> simp [saveTokenFs, fsSet]
    | some info =>
      by_cases hi : info = []
      · simp [getTokenCC, hload, hi, hnew]
        cases hc : w.chmodFails <;> simp [saveTokenFs, fsSet]
      · rcases hcase with h | ⟨info2, hload2, hvalid⟩
        · rw [hload] at h
          exact absurd h (by simp)
        · rw [hload] at hload2
          obtain rfl : info = info2 := by injection hload2
          simp [getTokenCC, hload, hi, hvalid, hnew]
          cases hc : w.chmodFails <;> simp [saveTokenFs, fsSet]


/-- Witness for C3: with a valid persisted record in the scope slot, the
client-credentials flow returns the persisted record and makes zero
token-endpoint calls, leaving the filesystem unchanged. -/
theorem client_credentials_token_reuse_witness :
    (getTokenCC wOk cU fsSlot "product.compact").1 = .ok recA ∧
    countTokenCalls (getTokenCC wOk cU fsSlot "product.compact").2.2.2 = 0 := by
  have h := (client_credentials_token_reuse wOk cU fsSlot "product.compact").1
    recA (JVal.s "AT1") (by decide) (by decide) (by decide)
  exact ⟨h.1, h.2.1⟩

end KrogerSpec

namespace KrogerSpec


theorem refreshTokenM_trace (w : World) (c : Client) (fs : FS) (rt : JVal) :
    (refreshTokenM w c fs rt).2.2.2 = [.tokenEndpoint "refresh_token"] := by
  unfold refreshTokenM
  cases hr : w.tokenRefresh rt with
  | ok newInfo => cases hc : w.chmodFails <;> simp
  | error e => simp

/-- C1: the refresh-and-retry policy of `_make_request`.  A non-auth HTTP
failure, a 401 whose body does not say `invalid_token`, and a 401
`invalid_token` with no usable refresh token in the active slot all
surface immediately with a single request and no token call.  With a
usable refresh token, exactly one refresh is performed; if it completes,
the request is retried exactly once and its success result is returned,
while a failing retry or a failing refresh surfaces the original 401
error with no further attempt. -/
theorem make_request_refresh_retry (w : World) (c : Client) (fs : FS)
    (hauth : (authToken c.tokenInfo).isSome = true) :
    (∀ status body, w.req1 = .err status body → status ≠ 401 →
       (makeRequest w c fs).1 = .error (.httpError status body) ∧
       (makeRequest w c fs).2.2.2 = [.apiRequest]) ∧
    (∀ ef, w.req1 = .err 401 (.jsonFields ef) → ef ≠ some "invalid_token" →
       (makeRequest w c fs).1 = .error (.httpError 401 (.jsonFields ef)) ∧
       (makeRequest w c fs).2.2.2 = [.apiRequest]) ∧
    (w.req1 = .err 401 (.jsonFields (some "invalid_token")) →
     availRefreshToken c fs = none →
       (makeRequest w c fs).1 =
         .error (.httpError 401 (.jsonFields (some "invalid_token"))) ∧
       (makeRequest w c fs).2.2.2 = [.apiRequest]) ∧
    (∀ rt, w.req1 = .err 401 (.jsonFields (some "invalid_token")) →
     availRefreshToken c fs = some rt →
       (∀ newInfo, (refreshTokenM w c fs rt).1 = .ok newInfo →
          (authToken (some newInfo)).isSome = true →
          countRefreshCalls (makeRequest w c fs).2.2.2 = 1 ∧
          countApiCalls (makeRequest w c fs).2.2.2 = 2 ∧
          (∀ out, reqSuccess w.req2 = some out → (makeRequest w c fs).1 = .ok out) ∧
          (reqSuccess w.req2 = none →
             (makeRequest w c fs).1 =
               .error (.httpError 401 (.jsonFields (some "invalid_token"))))) ∧
       (∀ e, (refreshTokenM w c fs rt).1 = .error e →
          (makeRequest w c fs).1 =
            .error (.httpError 401 (.jsonFields (some "invalid_token"))) ∧
          countRefreshCalls (makeRequest w c fs).2.2.2 = 1 ∧
          countApiCalls (makeRequest w c fs).2.2.2 = 1)) := by
  obtain ⟨tok, hat⟩ : ∃ tok, authToken c.tokenInfo = some tok := by
    cases h : authToken c.tokenInfo with
    | none => rw [h] at hauth; exact absurd hauth (by decide)
    | some tok => exact ⟨tok, rfl⟩
  refine ⟨?_, ?_, ?_, ?_⟩
  · intro status body hreq hne
    simp [makeRequest, hat, hreq, hne]
  · intro ef hreq hne
    simp [makeRequest, hat, hreq, hne]
  · intro hreq havail
    unfold availRefreshToken at havail
    cases htf : c.tokenFile with
    | none => simp [makeRequest, hat, hreq, htf]
    | some file =>
      rw [htf] at havail
      dsimp only at havail
      by_cases hfe : file = ""
      · simp [makeRequest, hat, hreq, htf, hfe]
      · rw [if_neg hfe] at havail
        cases hgr : getRefreshTokenFs fs file with
        | none => simp [makeRequest, hat, hreq, htf, hfe, hgr]
        | some rt =>
          rw [hgr] at havail
          dsimp only at havail
          cases htr : jvTruthy rt with
          | false => simp [makeRequest, hat, hreq, htf, hfe, hgr, htr]
          | true => rw [htr] at havail; simp at havail
  · intro rt hreq havail
    unfold availRefreshToken at havail
    obtain ⟨file, htf⟩ : ∃ file, c.tokenFile = some file := by
      cases htf : c.tokenFile with
      | none => rw [htf] at havail; exact absurd havail (by simp)
      | some file => exact ⟨file, rfl⟩
    rw [htf] at havail
    dsimp only at havail
    have hfe : file ≠ "" := by
      intro h
      rw [if_pos h] at havail
      exact absurd havail (by simp)
    rw [if_neg hfe] at havail
    obtain ⟨rt0, hgr⟩ : ∃ rt0, getRefreshTokenFs fs file = some rt0 := by
      cases hgr : getRefreshTokenFs fs file with
      | none => rw [hgr] at havail; exact absurd havail (by simp)
      | some rt0 => exact ⟨rt0, rfl⟩
    rw [hgr] at havail
    dsimp only at havail
    have htr : jvTruthy rt0 = true := by
      cases htr : jvTruthy rt0 with
      | false => rw [htr] at havail; exact absurd havail (by simp)
      | true => rfl
    rw [htr] at havail
    simp at havail
    subst havail
    constructor
    · intro newInfo hok hauth2
      obtain ⟨tok2, hat2⟩ : ∃ tok2, authToken (some newInfo) = some tok2 := by
        cases h : authToken (some newInfo) with
        | none => rw [h] at hauth2; exact absurd hauth2 (by decide)
        | some tok2 => exact ⟨tok2, rfl⟩
      obtain ⟨res, c1, fs1, tr1, hX⟩ : ∃ res c1 fs1 tr1,
          refreshTokenM w c fs rt0 = (res, c1, fs1, tr1) := ⟨_, _, _, _, rfl⟩
      have htrace := refreshTokenM_trace w c fs rt0
      rw [hX] at hok htrace
      dsimp only at hok htrace
      subst hok
      subst htrace
      refine ⟨?_, ?_, ?_, ?_⟩
      · simp [makeRequest, hat, hreq, htf, hfe, hgr, htr, hX, hat2, countRefreshCalls]
        cases hr2 : w.req2 <;> simp
      · simp [makeRequest, hat, hreq, htf, hfe, hgr, htr, hX, hat2, countApiCalls]
        cases hr2 : w.req2 <;> simp
      · intro out hout
        cases hr2 : w.req2 <;> rw [hr2] at hout <;> simp [reqSuccess] at hout <;>
          simp [makeRequest, hat, hreq, htf, hfe, hgr, htr, hX, hat2, hr2, ← hout]
      · intro hout
        cases hr2 : w.req2 <;> rw [hr2] at hout <;> simp [reqSuccess] at hout <;>
          simp [makeRequest, hat, hreq, htf, hfe, hgr, htr, hX, hat2, hr2]
    · intro e herr
      obtain ⟨res, c1, fs1, tr1, hX⟩ : ∃ res c1 fs1 tr1,
          refreshTokenM w c fs rt0 = (res, c1, fs1, tr1) := ⟨_, _, _, _, rfl⟩
      have htrace := refreshTokenM_trace w c fs rt0
      rw [hX] at herr htrace
      dsimp only at herr htrace
      subst herr
      subst htrace
      refine ⟨?_, ?_, ?_⟩
      · simp [makeRequest, hat, hreq, htf, hfe, hgr, htr, hX]
      · simp [makeRequest, hat, hreq, htf, hfe, hgr, htr, hX, countRefreshCalls]
      · simp [makeRequest, hat, hreq, htf, hfe, hgr, htr, hX, countApiCalls]


/-- Witness for C1: first request 401 `invalid_token`, slot `user.json`
holds a refresh token, refresh and retry succeed: exactly one refresh, two
API attempts, and the retried call's result is returned. -/
theorem make_request_refresh_retry_witness :
    countRefreshCalls (makeRequest wRetry cRetry fsUser).2.2.2 = 1 ∧
    countApiCalls (makeRequest wRetry cRetry fsUser).2.2.2 = 2 ∧
    (makeRequest wRetry cRetry fsUser).1 = .ok (some "two") := by
  have h := ((make_request_refresh_retry wRetry cRetry fsUser (by decide)).2.2.2
    (JVal.s "RT2") rfl (by decide)).1 recN (by decide) (by decide)
  exact ⟨h.1, h.2.1, h.2.2.1 (some "two") (by decide)⟩

end KrogerSpec

namespace KrogerSpec


theorem testToken_no_exchange (w : World) (c : Client) (fs : FS) (info : TokenInfo) :
    countExchangeCalls (testToken w c fs info).2.2.2 = 0 := by
  have hpath : ∀ c2, countExchangeCalls (testTokenRefreshPath w c2 fs
      ((getKey info "refresh_token").getD .null)).2.2.2 = 0 := by
    intro c2
    unfold testTokenRefreshPath refreshTokenM countExchangeCalls
    cases hr : w.tokenRefresh ((getKey info "refresh_token").getD .null) with
    | ok newInfo => cases hc : w.chmodFails <;> simp
    | error e => simp
  cases hk : hasKey info "refresh_token"
  · cases hat : authToken (some info) with
    | none => simp [testToken, hk, hat, countExchangeCalls]
    | some tok =>
      cases hpr : w.probe tok with
      | none => simp [testToken, hk, hat, hpr, countExchangeCalls]
      | some st =>
        by_cases hst : st = 200 <;>
          simp [testToken, hk, hat, hpr, hst, countExchangeCalls]
  · cases hat : authToken (some info) with
    | none => simpa [testToken, hk, hat, countExchangeCalls, List.count_cons] using hpath _
    | some tok =>
      cases hpr : w.probe tok with
      | none =>
        simpa [testToken, hk, hat, hpr, countExchangeCalls, List.count_cons] using hpath _
      | some st =>
        by_cases hst : st = 200
        · simp [testToken, hk, hat, hpr, hst, countExchangeCalls]
        · simpa [testToken, hk, hat, hpr, hst, countExchangeCalls, List.count_cons] using hpath _

theorem testCurrentToken_no_exchange (w : World) (c : Client) (fs : FS) :
    countExchangeCalls (testCurrentToken w c fs).2.2.2 = 0 := by
  unfold testCurrentToken
  cases hti : c.tokenInfo with
  | none => simp [countExchangeCalls]
  | some info =>
    by_cases hi : (info : List (String × JVal)) = []
    · simp [hi, countExchangeCalls]
    · simp [hi]
      exact testToken_no_exchange w _ fs info

theorem refreshTokenM_no_exchange (w : World) (c : Client) (fs : FS) (rt : JVal) :
    countExchangeCalls (refreshTokenM w c fs rt).2.2.2 = 0 := by
  rw [refreshTokenM_trace]
  decide

theorem authSavedStep_no_exchange (w : World) (fs : FS) (tokenFile : String) :
    countExchangeCalls (authSavedStep w fs tokenFile).2.2.1 = 0 := by
  unfold authSavedStep
  cases hload : loadTok fs tokenFile with
  | none => simp [countExchangeCalls]
  | some info =>
    by_cases hi : info = []
    · simp [hi, countExchangeCalls]
    · obtain ⟨v, c2, fs2, tr2, hT⟩ : ∃ v c2 fs2 tr2,
          testCurrentToken w ⟨some info, some tokenFile⟩ fs = (v, c2, fs2, tr2) :=
        ⟨_, _, _, _, rfl⟩
      have h0 := testCurrentToken_no_exchange w ⟨some info, some tokenFile⟩ fs
      rw [hT] at h0
      simp [hi, hT]
      exact h0

theorem authRefreshStep_no_exchange (w : World) (c1 : Client) (fs1 : FS)
    (tokenFile : String) :
    countExchangeCalls (authRefreshStep w c1 fs1 tokenFile).2.2.1 = 0 := by
  unfold authRefreshStep
  cases hgr : getRefreshTokenFs fs1 tokenFile with
  | none => simp [countExchangeCalls]
  | some rt =>
    cases htr : jvTruthy rt with
    | false => simp [htr, countExchangeCalls]
    | true =>
      simp only [htr, if_true]
      obtain ⟨res, c4, fs4, tr4, hX⟩ : ∃ res c4 fs4 tr4,
          refreshTokenM w c1 fs1 rt = (res, c4, fs4, tr4) := ⟨_, _, _, _, rfl⟩
      have h4 := refreshTokenM_no_exchange w c1 fs1 rt
      rw [hX] at h4
      cases res with
      | error e => simp [hX]; exact h4
      | ok info2 =>
        obtain ⟨v2, c5, fs5, tr5, hT2⟩ : ∃ v2 c5 fs5 tr5,
            testCurrentToken w c4 fs4 = (v2, c5, fs5, tr5) := ⟨_, _, _, _, rfl⟩
        have h5 := testCurrentToken_no_exchange w c4 fs4
        rw [hT2] at h5
        simp [hX, hT2, countExchangeCalls, List.count_append]
        simp [countExchangeCalls] at h4 h5
        omega

theorem authenticateUser_shape (w : World) (cfg : FlowCfg) (fs : FS) (tokenFile : String) :
    (authenticateUser w cfg fs tokenFile).2.2.1 = none ∨
    (∃ c3 fs3,
       (authenticateUser w cfg fs tokenFile).1 = (interactiveBody w cfg c3 fs3).1 ∧
       (authenticateUser w cfg fs tokenFile).2.2.1 = some true ∧
       countExchangeCalls (authenticateUser w cfg fs tokenFile).2.2.2 =
         countExchangeCalls (interactiveBody w cfg c3 fs3).2.2.2) := by
  obtain ⟨c1, fs1, tr1, v1, h1⟩ : ∃ c1 fs1 tr1 v1,
      authSavedStep w fs tokenFile = (c1, fs1, tr1, v1) := ⟨_, _, _, _, rfl⟩
  obtain ⟨c3, fs3, tr3, v2, h2⟩ : ∃ c3 fs3 tr3 v2,
      authRefreshStep w c1 fs1 tokenFile = (c3, fs3, tr3, v2) := ⟨_, _, _, _, rfl⟩
  have htr1 : countExchangeCalls tr1 = 0 := by
    have h0 := authSavedStep_no_exchange w fs tokenFile
    rw [h1] at h0
    exact h0
  have htr3 : countExchangeCalls tr3 = 0 := by
    have h0 := authRefreshStep_no_exchange w c1 fs1 tokenFile
    rw [h2] at h0
    exact h0
  cases v1 with
  | true => left; simp [authenticateUser, h1]
  | false =>
    cases v2 with
    | true => left; simp [authenticateUser, h1, h2]
    | false =>
      cases hred : getRedirectUriEnv cfg.redirectUri with
      | error e => left; simp [authenticateUser, h1, h2, authInteractive, hred]
      | ok uri =>
        cases hport : extractPort uri with
        | none => left; simp [authenticateUser, h1, h2, authInteractive, hred, hport]
        | some port =>
          right
          refine ⟨c3, fs3, ?_, ?_, ?_⟩
          · simp [authenticateUser, h1, h2, authInteractive, hred, hport]
          · simp [authenticateUser, h1, h2, authInteractive, hred, hport, serverShutdown]
          · have h1' := htr1
            have h3' := htr3
            simp only [countExchangeCalls] at h1' h3' ⊢
            simp [authenticateUser, h1, h2, authInteractive, hred, hport,
              List.count_append, h1', h3']


/-- C4: interactive-flow timeout and listener teardown.  Whenever the
callback server was started (flag `some _`), it is shut down on exit
(`some true`) — the `finally` branch runs on the success, mismatch,
timeout and exception paths alike; and in any run that reaches the wait
and times out, the flow fails with the `TimeoutError` (the
AuthorizationTimeout of the spec). -/
theorem interactive_timeout_and_listener_shutdown (w : World) (cfg : FlowCfg)
    (fs : FS) (tokenFile : String) :
    (∀ b, (authenticateUser w cfg fs tokenFile).2.2.1 = some b → b = true) ∧
    (cfg.scenario = .timeout →
     (authenticateUser w cfg fs tokenFile).2.2.1.isSome = true →
       (authenticateUser w cfg fs tokenFile).1 =
         .error (.timeoutErr "Authorization flow timed out. Please try again.")) := by
  rcases authenticateUser_shape w cfg fs tokenFile with hn | ⟨c3, fs3, hres, hsrv, _⟩
  · constructor
    · intro b hb
      rw [hn] at hb
      exact absurd hb (by simp)
    · intro _ hsome
      rw [hn] at hsome
      exact absurd hsome (by simp)
  · constructor
    · intro b hb
      rw [hsrv] at hb
      exact (Option.some.inj hb).symm
    · intro hscn _
      rw [hres]
      simp [interactiveBody, hscn]

/-- Witness for C4: empty filesystem, configured redirect URI with port
8000, listener times out: the flow fails with the timeout error and the
server flag shows started-then-stopped. -/
theorem interactive_timeout_witness :
    (authenticateUser wDown cfgTimeout fsNone "user.json").1 =
      .error (.timeoutErr "Authorization flow timed out. Please try again.") ∧
    (authenticateUser wDown cfgTimeout fsNone "user.json").2.2.1 = some true := by
  constructor
  · exact (interactive_timeout_and_listener_shutdown wDown cfgTimeout fsNone
      "user.json").2 rfl (by decide)
  · decide

/-- C5: a state value at the callback differing from the one sent aborts
the flow with the CSRF `ValueError` before any code exchange: the whole
run performs zero `authorization_code` token-endpoint calls, and the
listener is shut down. -/
theorem interactive_state_mismatch_blocks_exchange (w : World) (cfg : FlowCfg)
    (fs : FS) (tokenFile : String) (code st : String)
    (hscn : cfg.scenario = .callback code st) (hne : st ≠ cfg.genState) :
    (authenticateUser w cfg fs tokenFile).2.2.1.isSome = true →
      (authenticateUser w cfg fs tokenFile).1 =
        .error (.valueError "State parameter mismatch. Possible CSRF attack.") ∧
      countExchangeCalls (authenticateUser w cfg fs tokenFile).2.2.2 = 0 ∧
      (authenticateUser w cfg fs tokenFile).2.2.1 = some true := by
  intro hsome
  rcases authenticateUser_shape w cfg fs tokenFile with hn | ⟨c3, fs3, hres, hsrv, htr⟩
  · rw [hn] at hsome
    exact absurd hsome (by simp)
  · refine ⟨?_, ?_, hsrv⟩
    · rw [hres]
      simp [interactiveBody, hscn, hne]
    · rw [htr]
      simp [interactiveBody, hscn, hne, countExchangeCalls]

/-- Witness for C5: the callback returns state `EVIL` while `STATE1` was
sent: the flow fails with the mismatch error, no exchange call happens,
and the listener is stopped. -/
theorem interactive_state_mismatch_witness :
    (authenticateUser wDown cfgMismatch fsNone "user.json").1 =
      .error (.valueError "State parameter mismatch. Possible CSRF attack.") ∧
    countExchangeCalls (authenticateUser wDown cfgMismatch fsNone "user.json").2.2.2 = 0 ∧
    (authenticateUser wDown cfgMismatch fsNone "user.json").2.2.1 = some true :=
  interactive_state_mismatch_blocks_exchange wDown cfgMismatch fsNone "user.json"
    "CODE" "EVIL" rfl (by decide) (by decide)

end KrogerSpec

namespace KrogerSpec


end KrogerSpec
